import Mathlib

/-!
Verification of the conversational-memory core of the chatBOT repository
(`src/main.py`): the `ConversationManager` class (bounded per-channel logs
with a three-pass eviction policy), its token-estimation fallback
(`_calculate_total_tokens`), and the context assembly that merges the
store's short-term history with freshly fetched platform history
(`get_contextual_history` plus the concatenation in `on_message`).

Modelling conventions:
- Instants (`datetime.now(timezone.utc)`) and durations (`timedelta`) are
  integers (`Int`); `current_time - msg['timestamp'] <= self.max_age`
  becomes `now - r.timestamp ≤ maxAge` over `Int`.
- The two `datetime.now` readings inside a single `add_message` call (one
  for the appended record, one at the start of `_cleanup_conversation`)
  are modelled as one instant `now`.
- The external token-counting call `model.count_tokens(...).total_tokens`,
  which may raise, is an oracle `List String → Option Nat`; `none` is the
  raised exception caught by the `except` branch.
- `self.conversations` is a `defaultdict(list)`; absence of a key is
  observationally an empty list, so the store is a total function from
  channel ids to logs.
- Roles are kept as the strings the code stores ("model" / "user"); the
  spec's Assistant/User vocabulary corresponds to "model"/"user".
-/

/-- A stored conversation record, as built by `add_message`
(`{'role': ..., 'content': ..., 'timestamp': ...}`). -/
structure Record where
  role : String
  content : String
  timestamp : Int
deriving DecidableEq, Repr

/-- The `{'role': ..., 'parts': [...]}` dictionaries produced by
`get_formatted_history` and `get_contextual_history`. -/
structure GeminiMessage where
  role : String
  parts : List String
deriving DecidableEq, Repr

/-- The store `self.conversations`: a `defaultdict(list)` from channel id
to that channel's log, oldest first. -/
def Store : Type := Nat → List Record

/-- The store of a freshly constructed `ConversationManager`. -/
def emptyStore : Store := fun _ => []

/-- `_calculate_total_tokens`, with the log's contents already projected
out (`history_content = [msg['content'] for msg in ...]`): empty input
returns 0 without invoking the external call; otherwise the oracle's
answer is used, and on failure (`none`) the fallback is the sum of the
character counts of the texts. -/
def calcTotalTokens (counter : List String → Option Nat) (contents : List String) : Nat :=
  if contents.isEmpty then 0
  else
    match counter contents with
    | some n => n
    | none => (contents.map String.length).sum

/-- Age-filter pass of `_cleanup_conversation` (lines 61-64): keep exactly
the records with `current_time - msg['timestamp'] <= self.max_age`. -/
def ageFilter (now maxAge : Int) (log : List Record) : List Record :=
  log.filter (fun r => now - r.timestamp ≤ maxAge)

/-- Count-cap pass of `_cleanup_conversation` (lines 65-66):
`conversations[ch] = conversations[ch][-max_messages:]` when the length
exceeds `max_messages`. Python's `xs[-m:]` is the last `m` elements when
`m > 0` but the WHOLE list when `m = 0`. -/
def countCap (maxMessages : Nat) (log : List Record) : List Record :=
  if log.length > maxMessages then
    if maxMessages = 0 then log else log.drop (log.length - maxMessages)
  else log

/-- Token-budget trim of `_cleanup_conversation` (lines 67-69): while the
estimated token cost exceeds `token_limit`, pop the oldest record; the
loop breaks on an empty log (for the empty log the estimate is 0, so the
guard already fails there). -/
def tokenTrim (counter : List String → Option Nat) (tokenLimit : Nat) :
    List Record → List Record
  | [] => []
  | r :: rest =>
    if calcTotalTokens counter ((r :: rest).map (fun m => m.content)) > tokenLimit then
      tokenTrim counter tokenLimit rest
    else r :: rest

/-- `_cleanup_conversation` applied to one channel's log: age filter, then
count cap, then token-budget trim. -/
def cleanupConversation (counter : List String → Option Nat) (now maxAge : Int)
    (maxMessages tokenLimit : Nat) (log : List Record) : List Record :=
  tokenTrim counter tokenLimit (countCap maxMessages (ageFilter now maxAge log))

/-- The record appended by `add_message`:
`role_for_gemini = "model" if role == "assistant" else "user"`. -/
def mkRecord (role content : String) (now : Int) : Record :=
  { role := if role = "assistant" then "model" else "user"
    content := content
    timestamp := now }

/-- `add_message`: append the new record to the channel's log, then run
`_cleanup_conversation` on that channel. Other channels are untouched. -/
def addMessage (counter : List String → Option Nat) (now maxAge : Int)
    (maxMessages tokenLimit : Nat) (store : Store)
    (channelId : Nat) (role content : String) : Store :=
  fun ch =>
    if ch = channelId then
      cleanupConversation counter now maxAge maxMessages tokenLimit
        (store channelId ++ [mkRecord role content now])
    else store ch

/-- `clear_conversation`: with no channel id, `conversations.clear()`
empties everything; with a channel id, `conversations[ch].clear()` runs
only when the key is present, which is observationally emptying that
channel's log and nothing else. -/
def clearConversation (store : Store) (channelId : Option Nat) : Store :=
  match channelId with
  | none => fun _ => []
  | some c => fun ch => if ch = c then [] else store ch

/-- `get_formatted_history`: the `{'role', 'parts': [content]}` projection
of the channel's current log, in log order. -/
def getFormattedHistory (store : Store) (channelId : Nat) : List GeminiMessage :=
  (store channelId).map (fun msg => { role := msg.role, parts := [msg.content] })

/-- One message as delivered by the platform history fetch
(`channel.history`): the author's bot flag and the cleaned text. -/
structure PlatformMessage where
  authorIsBot : Bool
  cleanContent : String
deriving DecidableEq, Repr

/-- Python's `str.strip()`: remove leading and trailing whitespace
characters (written over the character list so that it evaluates by
kernel reduction). -/
def pyStrip (s : String) : String :=
  ⟨((s.data.dropWhile Char.isWhitespace).reverse.dropWhile Char.isWhitespace).reverse⟩

/-- The loop body of `get_contextual_history`: strip the content, skip the
message when the stripped content is empty, otherwise map the bot flag to
"model"/"user" and wrap the content. -/
def fmtPlatform (m : PlatformMessage) : Option GeminiMessage :=
  let content := pyStrip m.cleanContent
  if content = "" then none
  else some { role := if m.authorIsBot then "model" else "user", parts := [content] }

/-- `get_contextual_history`: `channel.history(limit=limit)` yields the
channel's messages newest-first, capped at `limit` (modelled as
`msgs.take limit` of the newest-first stream `msgs`); the loop appends the
surviving messages in delivery order and the result is reversed to
oldest-first. -/
def getContextualHistory (limit : Nat) (msgs : List PlatformMessage) : List GeminiMessage :=
  ((msgs.take limit).filterMap fmtPlatform).reverse

/-- The context assembly in `on_message` (lines 138-140):
`full_history = short_term_history + discord_history`. -/
def buildFullHistory (store : Store) (channelId : Nat) (limit : Nat)
    (msgs : List PlatformMessage) : List GeminiMessage :=
  getFormattedHistory store channelId ++ getContextualHistory limit msgs

/-- Timestamps along a log are non-decreasing. -/
def tsMono (log : List Record) : Prop :=
  List.Pairwise (fun a b => a.timestamp ≤ b.timestamp) log

instance (log : List Record) : Decidable (tsMono log) := by
  unfold tsMono; infer_instance

/-- A token oracle that always succeeds with 0 (keeps the token trim
inactive in concrete scenarios). -/
def counterZero : List String → Option Nat := fun _ => some 0

/-- A token oracle that always fails. -/
def counterFail : List String → Option Nat := fun _ => none

/-! ### Helper lemmas -/

theorem tokenTrim_suffix (counter : List String → Option Nat) (lim : Nat)
    (log : List Record) : tokenTrim counter lim log <:+ log := by
  induction log with
  | nil => simp [tokenTrim]
  | cons r rest ih =>
    by_cases h : calcTotalTokens counter ((r :: rest).map (fun m => m.content)) > lim
    · simp only [tokenTrim, if_pos h]
      exact ih.trans (List.suffix_cons r rest)
    · simp only [tokenTrim, if_neg h]
      exact List.suffix_rfl

theorem tokenTrim_calc_le (counter : List String → Option Nat) (lim : Nat)
    (log : List Record) :
    calcTotalTokens counter ((tokenTrim counter lim log).map (fun m => m.content)) ≤ lim := by
  induction log with
  | nil => simp [tokenTrim, calcTotalTokens]
  | cons r rest ih =>
    by_cases h : calcTotalTokens counter ((r :: rest).map (fun m => m.content)) > lim
    · simp only [tokenTrim, if_pos h]
      exact ih
    · simp only [tokenTrim, if_neg h]
      omega

theorem countCap_suffix (m : Nat) (log : List Record) : countCap m log <:+ log := by
  unfold countCap
  by_cases h : log.length > m
  · by_cases hm : m = 0
    · simp [h, hm]
    · simpa [h, hm] using List.drop_suffix (log.length - m) log
  · simp [h]

theorem ageFilter_suffix_of_mono (now maxAge : Int) (log : List Record)
    (h : tsMono log) : ageFilter now maxAge log <:+ log := by
  induction log with
  | nil => simp [ageFilter]
  | cons r rest ih =>
    rcases List.pairwise_cons.mp h with ⟨hr, hrest⟩
    by_cases hp : now - r.timestamp ≤ maxAge
    · have hall : ∀ x ∈ rest, (decide (now - x.timestamp ≤ maxAge)) = true := by
        intro x hx
        have := hr x hx
        simp only [decide_eq_true_eq]
        omega
      have heq : ageFilter now maxAge (r :: rest) = r :: rest := by
        unfold ageFilter
        rw [List.filter_cons_of_pos (by simpa using hp), List.filter_eq_self.mpr hall]
      rw [heq]
    · have heq : ageFilter now maxAge (r :: rest) = ageFilter now maxAge rest := by
        unfold ageFilter
        rw [List.filter_cons_of_neg (by simpa using hp)]
      rw [heq]
      exact (ih hrest).trans (List.suffix_cons r rest)

theorem cleanup_suffix_of_mono (counter : List String → Option Nat) (now maxAge : Int)
    (m lim : Nat) (log : List Record) (h : tsMono log) :
    cleanupConversation counter now maxAge m lim log <:+ log := by
  unfold cleanupConversation
  exact ((tokenTrim_suffix counter lim _).trans (countCap_suffix m _)).trans
    (ageFilter_suffix_of_mono now maxAge log h)

theorem ageFilter_mem (now maxAge : Int) (log : List Record) (r : Record)
    (h : r ∈ ageFilter now maxAge log) : r ∈ log ∧ now - r.timestamp ≤ maxAge := by
  unfold ageFilter at h
  rcases List.mem_filter.mp h with ⟨h1, h2⟩
  exact ⟨h1, by simpa using h2⟩

theorem cleanup_mem (counter : List String → Option Nat) (now maxAge : Int)
    (m lim : Nat) (log : List Record) (r : Record)
    (h : r ∈ cleanupConversation counter now maxAge m lim log) :
    r ∈ log ∧ now - r.timestamp ≤ maxAge := by
  unfold cleanupConversation at h
  have h1 : r ∈ countCap m (ageFilter now maxAge log) :=
    (tokenTrim_suffix counter lim _).sublist.subset h
  have h2 : r ∈ ageFilter now maxAge log :=
    (countCap_suffix m _).sublist.subset h1
  exact ⟨(List.filter_sublist _).subset h2, (ageFilter_mem now maxAge log r h2).2⟩

theorem cleanup_sublist (counter : List String → Option Nat) (now maxAge : Int)
    (m lim : Nat) (log : List Record) :
    List.Sublist (cleanupConversation counter now maxAge m lim log) log := by
  unfold cleanupConversation
  exact ((tokenTrim_suffix counter lim _).sublist.trans
    (countCap_suffix m _).sublist).trans (List.filter_sublist _)

theorem cleanup_mono (counter : List String → Option Nat) (now maxAge : Int)
    (m lim : Nat) (log : List Record) (h : tsMono log) :
    tsMono (cleanupConversation counter now maxAge m lim log) :=
  h.sublist (cleanup_sublist counter now maxAge m lim log)

/-! ### Concrete scenario data -/

/-- A sample record used in concrete instantiations. -/
def recU : Record := { role := "user", content := "hello", timestamp := 0 }

/-- The count-cap scenario of the spec: 25 messages added one per time
unit to channel 1 of a fresh manager with `max_messages = 20`,
`max_age = 600` time units and a token oracle that always answers 0. -/
def c2Run : Store :=
  (List.range 25).foldl
    (fun st i => addMessage counterZero (i : Int) 600 20 7168 st 1 "user" (toString i))
    emptyStore

/-! ### Claims -/

/-- C1: immediately after the cleanup pass triggered by addMessage, the
estimated token cost of the channel's log is at most the token limit (the
bound in fact holds even for the emptied log, whose estimate is 0); the
token-budget trim removes the single oldest record whenever the estimate
exceeds the limit and the log is nonempty, stops as soon as the budget is
satisfied, and never blocks: it reaches the empty log if nothing smaller
suffices. -/
theorem claim_c1_token_budget (counter : List String → Option Nat)
    (now maxAge : Int) (m lim : Nat) (log : List Record) :
    calcTotalTokens counter
        ((cleanupConversation counter now maxAge m lim log).map (fun r => r.content)) ≤ lim ∧
    (∀ (r : Record) (rest : List Record),
      calcTotalTokens counter ((r :: rest).map (fun x => x.content)) > lim →
      tokenTrim counter lim (r :: rest) = tokenTrim counter lim rest) ∧
    (calcTotalTokens counter (log.map (fun r => r.content)) ≤ lim →
      tokenTrim counter lim log = log) ∧
    tokenTrim counter lim [] = [] := by
  refine ⟨tokenTrim_calc_le counter lim _, ?_, ?_, rfl⟩
  · intro r rest h
    simp only [tokenTrim, if_pos h]
  · intro h
    cases log with
    | nil => rfl
    | cons r rest =>
      simp only [tokenTrim, if_neg (by omega : ¬calcTotalTokens counter
        ((r :: rest).map (fun x => x.content)) > lim)]

/-- Witness for C1 at a concrete over-budget log: the limit is 3 and the
single record's fallback estimate is 5, so the trim empties the log and
the post-cleanup estimate is 0 ≤ 3. -/
theorem claim_c1_token_budget_witness :
    calcTotalTokens counterFail
        ((cleanupConversation counterFail 0 600 20 3 [recU]).map (fun r => r.content)) ≤ 3 ∧
    tokenTrim counterFail 3 [recU] = tokenTrim counterFail 3 [] :=
  ⟨(claim_c1_token_budget counterFail 0 600 20 3 [recU]).1,
   (claim_c1_token_budget counterFail 0 600 20 3 [recU]).2.1 recU [] (by decide)⟩

set_option maxRecDepth 8000

/-- C2: whenever the log length exceeds `maxMessages` (with the deployed
configuration's positive `maxMessages`), the count-cap pass keeps exactly
the suffix of the most recent `maxMessages` records in order; and adding
25 messages with `maxMessages = 20` leaves exactly the last 20, oldest
first, the earliest 5 dropped. -/
theorem claim_c2_count_cap :
    (∀ (m : Nat) (log : List Record), 0 < m → log.length > m →
      countCap m log = log.drop (log.length - m) ∧ (countCap m log).length = m) ∧
    (c2Run 1).map (fun r => r.content) = ((List.range 25).drop 5).map toString := by
  constructor
  · intro m log hm hl
    have heq : countCap m log = log.drop (log.length - m) := by
      unfold countCap
      rw [if_pos hl, if_neg (by omega)]
    refine ⟨heq, ?_⟩
    rw [heq, List.length_drop]
    omega
  · decide

/-- Witness for C2 at the deployed configuration: a 21-record log is
capped to its last 20 records. -/
theorem claim_c2_count_cap_witness :
    countCap 20 (List.replicate 21 recU) =
      (List.replicate 21 recU).drop ((List.replicate 21 recU).length - 20) ∧
    (countCap 20 (List.replicate 21 recU)).length = 20 :=
  claim_c2_count_cap.1 20 (List.replicate 21 recU) (by decide) (by decide)

/-- C3: the age-filter pass keeps a sublist of the log (relative order
preserved), its members are exactly the records of the log whose age
`now - timestamp` does not exceed `maxAge`, and consequently every record
present immediately after a full cleanup pass satisfies
`now - timestamp ≤ maxAge`. -/
theorem claim_c3_age_filter (counter : List String → Option Nat)
    (now maxAge : Int) (m lim : Nat) (log : List Record) :
    List.Sublist (ageFilter now maxAge log) log ∧
    (∀ r ∈ ageFilter now maxAge log, r ∈ log ∧ now - r.timestamp ≤ maxAge) ∧
    (∀ r ∈ log, now - r.timestamp ≤ maxAge → r ∈ ageFilter now maxAge log) ∧
    (∀ r ∈ cleanupConversation counter now maxAge m lim log,
      now - r.timestamp ≤ maxAge) := by
  refine ⟨List.filter_sublist _, fun r hr => ageFilter_mem now maxAge log r hr, ?_, ?_⟩
  · intro r hr hage
    exact List.mem_filter.mpr ⟨hr, by simpa using hage⟩
  · intro r hr
    exact (cleanup_mem counter now maxAge m lim log r hr).2

/-- Witness for C3: in a two-record log at times 0 and 95 with
`now = 100`, `maxAge = 10`, the recent record is kept by the filter and
the record surviving cleanup is within age. -/
theorem claim_c3_age_filter_witness :
    ({ role := "user", content := "hi", timestamp := 95 } : Record) ∈
      ageFilter 100 10 [{ role := "user", content := "old", timestamp := 0 },
        { role := "user", content := "hi", timestamp := 95 }] ∧
    (100 : Int) - ({ role := "user", content := "hi", timestamp := 95 } : Record).timestamp ≤ 10 := by
  have h := claim_c3_age_filter counterZero 100 10 20 7168
    [{ role := "user", content := "old", timestamp := 0 },
     { role := "user", content := "hi", timestamp := 95 }]
  exact ⟨h.2.2.1 _ (by decide) (by decide),
    h.2.2.2 { role := "user", content := "hi", timestamp := 95 } (by decide)⟩

/-- C4: the token estimator is total: on oracle failure it returns the sum
of the character counts of the texts (so a failing call on ["ab","cde"]
yields 5), and on empty input it returns 0 independently of the oracle
(the external call is not consulted). -/
theorem claim_c4_estimator_fallback (counter counter2 : List String → Option Nat)
    (texts : List String) :
    (counter texts = none → calcTotalTokens counter texts = (texts.map String.length).sum) ∧
    calcTotalTokens counter [] = 0 ∧
    calcTotalTokens counter [] = calcTotalTokens counter2 [] ∧
    calcTotalTokens counterFail ["ab", "cde"] = 5 := by
  refine ⟨?_, rfl, rfl, by decide⟩
  intro h
  unfold calcTotalTokens
  rw [h]
  cases texts with
  | nil => simp
  | cons t ts => simp

/-- Witness for C4: the always-failing oracle on ["ab","cde"] falls back
to the character-count sum. -/
theorem claim_c4_estimator_fallback_witness :
    calcTotalTokens counterFail ["ab", "cde"] = ((["ab", "cde"]).map String.length).sum :=
  (claim_c4_estimator_fallback counterFail counterZero ["ab", "cde"]).1 rfl

/-- Store for the assembler scenario: channel 1 holds the short-term
history [A, B]. -/
def c5Store : Store := fun ch =>
  if ch = 1 then
    [{ role := "user", content := "A", timestamp := 0 },
     { role := "model", content := "B", timestamp := 1 }]
  else []

/-- Platform history for the assembler scenario, newest-first as the
platform delivers it: D (a bot message) then C (a user message). -/
def c5Fetched : List PlatformMessage :=
  [{ authorIsBot := true, cleanContent := "D" },
   { authorIsBot := false, cleanContent := "C" }]

/-- Store for the duplication scenario: channel 1 already holds A. -/
def c5DupStore : Store := fun ch =>
  if ch = 1 then [{ role := "user", content := "A", timestamp := 0 }] else []

/-- Platform history for the duplication scenario: the same user message A
is also fetched live. -/
def c5DupFetched : List PlatformMessage :=
  [{ authorIsBot := false, cleanContent := "A" }]

/-- C5: the assembled context is exactly the store's short-term history
followed by the fetched history reordered from newest-first to
oldest-first with empty-content messages dropped; the fetched segment has
at most `limit` entries and only nonempty contents; on the spec's example
the result is [A, B, C, D] verbatim; and no deduplication is performed,
so a message present in both segments appears twice. -/
theorem claim_c5_assembler (store : Store) (ch lim : Nat) (msgs : List PlatformMessage) :
    buildFullHistory store ch lim msgs =
      getFormattedHistory store ch ++ ((msgs.take lim).filterMap fmtPlatform).reverse ∧
    (getContextualHistory lim msgs).length ≤ lim ∧
    (∀ g ∈ getContextualHistory lim msgs, ∃ s, g.parts = [s] ∧ s ≠ "") ∧
    buildFullHistory c5Store 1 5 c5Fetched =
      [{ role := "user", parts := ["A"] }, { role := "model", parts := ["B"] },
       { role := "user", parts := ["C"] }, { role := "model", parts := ["D"] }] ∧
    buildFullHistory c5DupStore 1 5 c5DupFetched =
      [{ role := "user", parts := ["A"] }, { role := "user", parts := ["A"] }] := by
  refine ⟨rfl, ?_, ?_, by decide, by decide⟩
  · unfold getContextualHistory
    rw [List.length_reverse]
    exact le_trans (List.length_filterMap_le _ _) (List.length_take_le lim msgs)
  · intro g hg
    unfold getContextualHistory at hg
    rw [List.mem_reverse] at hg
    rcases List.mem_filterMap.mp hg with ⟨pm, _, hfm⟩
    unfold fmtPlatform at hfm
    by_cases hc : pyStrip pm.cleanContent = ""
    · simp [hc] at hfm
    · simp only [hc, if_neg hc] at hfm
      refine ⟨pyStrip pm.cleanContent, ?_, hc⟩
      rw [← Option.some_inj.mp hfm]

/-- Witness for C5: on the concrete two-plus-two scenario the fetched
segment's single entries are nonempty. -/
theorem claim_c5_assembler_witness :
    ∃ s, ({ role := "user", parts := ["C"] } : GeminiMessage).parts = [s] ∧ s ≠ "" :=
  (claim_c5_assembler c5Store 1 5 c5Fetched).2.2.1
    { role := "user", parts := ["C"] } (by decide)

/-- C6: getHistory is a projection of the channel's current log: empty for
a channel with no records (in particular on a fresh store), of the same
length as the log, and with the i-th output being exactly the
{role, [content]} projection of the i-th record — so the appended order is
preserved and nothing is reordered. Reading is side-effect free: the
projection is a pure function of the store. -/
theorem claim_c6_get_history (store : Store) (ch : Nat) :
    (store ch = [] → getFormattedHistory store ch = []) ∧
    getFormattedHistory emptyStore ch = [] ∧
    (getFormattedHistory store ch).length = (store ch).length ∧
    (∀ i : Nat, (getFormattedHistory store ch)[i]? =
      ((store ch)[i]?).map (fun r => { role := r.role, parts := [r.content] })) := by
  refine ⟨?_, rfl, List.length_map _ _, ?_⟩
  · intro h
    unfold getFormattedHistory
    rw [h]
    rfl
  · intro i
    unfold getFormattedHistory
    rw [List.getElem?_map]

/-- Witness for C6: an unknown channel of a store yields the empty
history. -/
theorem claim_c6_get_history_witness :
    getFormattedHistory emptyStore 42 = [] :=
  (claim_c6_get_history emptyStore 42).1 rfl

/-- Store for the clear scenario: channels 5 and 6 hold one record each. -/
def c7Store : Store := fun ch =>
  if ch = 5 then [recU] else if ch = 6 then [recU] else []

/-- C7: clear with a channel id empties exactly that channel and leaves
every other channel unchanged; when the named channel has no records the
whole store is unchanged; clear with no channel id empties every channel.
All cases are total — there is no failing branch. -/
theorem claim_c7_clear (store : Store) (c : Nat) :
    clearConversation store (some c) c = [] ∧
    (∀ ch, ch ≠ c → clearConversation store (some c) ch = store ch) ∧
    (store c = [] → ∀ ch, clearConversation store (some c) ch = store ch) ∧
    (∀ ch, clearConversation store none ch = []) := by
  refine ⟨by simp [clearConversation], ?_, ?_, fun ch => rfl⟩
  · intro ch h
    simp [clearConversation, h]
  · intro h ch
    by_cases hc : ch = c
    · subst hc
      simp [clearConversation, h]
    · simp [clearConversation, hc]

/-- Witness for C7: clearing channel 5 of the two-channel store empties
channel 5, leaves channel 6 alone; clearing the empty channel 9 is a
no-op on channel 6; clearing everything empties channel 6. -/
theorem claim_c7_clear_witness :
    clearConversation c7Store (some 5) 5 = [] ∧
    clearConversation c7Store (some 5) 6 = c7Store 6 ∧
    clearConversation c7Store (some 9) 6 = c7Store 6 ∧
    clearConversation c7Store none 6 = [] :=
  ⟨(claim_c7_clear c7Store 5).1,
   (claim_c7_clear c7Store 5).2.1 6 (by decide),
   (claim_c7_clear c7Store 9).2.2.1 (by decide) 6,
   (claim_c7_clear c7Store 5).2.2.2 6⟩

/-- C8: if every channel's log has non-decreasing timestamps and the call
time `now` is not earlier than any record already in the target channel,
then after addMessage (append plus cleanup) every channel's log still has
non-decreasing timestamps, and likewise after any clear. -/
theorem claim_c8_timestamps_mono (counter : List String → Option Nat)
    (now maxAge : Int) (m lim : Nat) (store : Store)
    (channelId : Nat) (role content : String) (cOpt : Option Nat)
    (hmono : ∀ ch, tsMono (store ch))
    (hts : ∀ r ∈ store channelId, r.timestamp ≤ now) :
    (∀ ch, tsMono (addMessage counter now maxAge m lim store channelId role content ch)) ∧
    (∀ ch, tsMono (clearConversation store cOpt ch)) := by
  constructor
  · intro ch
    unfold addMessage
    by_cases hc : ch = channelId
    · rw [if_pos hc]
      apply cleanup_mono
      unfold tsMono
      rw [List.pairwise_append]
      refine ⟨hmono channelId, List.pairwise_singleton _ _, ?_⟩
      intro a ha b hb
      rw [List.mem_singleton.mp hb]
      exact hts a ha
    · rw [if_neg hc]
      exact hmono ch
  · intro ch
    cases cOpt with
    | none => exact List.Pairwise.nil
    | some c =>
      have hred : clearConversation store (some c) ch = if ch = c then [] else store ch := rfl
      rw [hred]
      by_cases hc : ch = c
      · rw [if_pos hc]
        exact List.Pairwise.nil
      · rw [if_neg hc]
        exact hmono ch

/-- Witness for C8: appending at time 3 to a channel whose two records are
at times 1 and 2 keeps the log monotone, as does clearing channel 5. -/
theorem claim_c8_timestamps_mono_witness :
    tsMono (addMessage counterZero 3 600 20 7168
      (fun ch => if ch = 1 then
        [{ role := "user", content := "x", timestamp := 1 },
         { role := "model", content := "y", timestamp := 2 }] else [])
      1 "user" "z" 1) ∧
    tsMono (clearConversation
      (fun ch => if ch = 1 then
        [{ role := "user", content := "x", timestamp := 1 },
         { role := "model", content := "y", timestamp := 2 }] else [])
      (some 5) 1) := by
  have h := claim_c8_timestamps_mono counterZero 3 600 20 7168
    (fun ch => if ch = 1 then
      [{ role := "user", content := "x", timestamp := 1 },
       { role := "model", content := "y", timestamp := 2 }] else [])
    1 "user" "z" (some 5)
    (by intro ch; by_cases hc : ch = 1 <;> simp [hc] <;> decide)
    (by intro r hr; simp at hr; rcases hr with h1 | h1 <;> simp [h1])
  exact ⟨h.1 1, h.2 1⟩

/-- C9: the role mapping of addMessage is total: the stored role is
"model" (the Assistant role) exactly when the caller passes "assistant",
and every other role string — "system" included — is stored as "user";
a concrete addMessage with role "system" succeeds and stores a "user"
record. -/
theorem claim_c9_role_total (role content : String) (now : Int) :
    ((mkRecord role content now).role = "model" ↔ role = "assistant") ∧
    (role ≠ "assistant" → (mkRecord role content now).role = "user") ∧
    addMessage counterZero 0 600 20 7168 emptyStore 1 "system" "hi" 1 =
      [{ role := "user", content := "hi", timestamp := 0 }] := by
  refine ⟨?_, ?_, by decide⟩
  · unfold mkRecord
    by_cases h : role = "assistant"
    · simp [h]
    · simp only [if_neg h]
      constructor
      · intro hx
        exact absurd hx (by decide)
      · intro hx
        exact absurd hx h
  · intro h
    unfold mkRecord
    simp [h]

/-- Witness for C9: the unrecognized role "system" maps to a "user"
record. -/
theorem claim_c9_role_total_witness :
    (mkRecord "system" "hi" 0).role = "user" :=
  (claim_c9_role_total "system" "hi" 0).2.1 (by decide)

/-- C10: for a log with non-decreasing timestamps, the log after a full
cleanup pass (age filter, count cap, token trim) is a contiguous suffix of
the log before it: records are only dropped from the oldest end, never
reordered, and no record is removed while an older one is kept. -/
theorem claim_c10_cleanup_suffix (counter : List String → Option Nat)
    (now maxAge : Int) (m lim : Nat) (log : List Record) (h : tsMono log) :
    cleanupConversation counter now maxAge m lim log <:+ log :=
  cleanup_suffix_of_mono counter now maxAge m lim log h

/-- Witness for C10: a three-record monotone log at times 0, 90, 95 with
`now = 100`, `maxAge = 10` (so the oldest record is evicted) cleans up to
a suffix of itself. -/
theorem claim_c10_cleanup_suffix_witness :
    cleanupConversation counterZero 100 10 20 7168
      [{ role := "user", content := "a", timestamp := 0 },
       { role := "model", content := "b", timestamp := 90 },
       { role := "user", content := "c", timestamp := 95 }] <:+
      [{ role := "user", content := "a", timestamp := 0 },
       { role := "model", content := "b", timestamp := 90 },
       { role := "user", content := "c", timestamp := 95 }] :=
  claim_c10_cleanup_suffix counterZero 100 10 20 7168
    [{ role := "user", content := "a", timestamp := 0 },
     { role := "model", content := "b", timestamp := 90 },
     { role := "user", content := "c", timestamp := 95 }] (by decide)
